import Mathlib

/-!
The `render` method of the `ErrorMessages` component.

Source: `unleash-server/public/js/components/ErrorMessages.jsx`.

The component reads two properties of `this.props` (`errors` and
`onClearErrors`) and returns a JSX tree.  The embedding below keeps

* the dynamically typed values that can be stored in `this.props`,
* the JSX tree the method returns, attribute by attribute, in source order,
* the run-time errors the member accesses of line 5 and line 9 can raise,
* an explicit world (component instance and log of callback invocations)
  threaded through every step, so that frame properties can be stated.

The specification calls the handler input `onClear`; in the source it is the
property `onClearErrors` of `this.props`.
-/

namespace ErrorMessages

/-! ## Values -/

/-- The JavaScript values considered for `this.props`.  Numbers are the integral
ones (the only numbers `render` looks at are lengths).  An array is a dense array
of strings, the input the component is written for; arrays with other elements,
for which line 10 would have to turn the element into a key, are not
represented.  A function value is a reference `ref` to a callback owned by the
caller together with its declared arity (its `length` property).  A `host` value
is an object of the hosting framework, such as a click event, that has neither a
`length` nor a `map` member. -/
inductive JSVal where
  | undefined : JSVal
  | null : JSVal
  | bool (b : Bool) : JSVal
  | num (n : Int) : JSVal
  | str (s : String) : JSVal
  | arr (xs : List String) : JSVal
  | fn (ref : Nat) (arity : Nat) : JSVal
  | host (id : Nat) : JSVal
  deriving DecidableEq

/-- The two ways a member access of `render` raises a `TypeError`. -/
inductive JSError where
  /-- Reading member `member` of `undefined` or of `null`. -/
  | cannotReadMember (member : String) : JSError
  /-- Calling member `member` of a value that has no callable member of that name. -/
  | notAFunction (member : String) : JSError
  deriving DecidableEq

/-- A JSX node: an element with its tag, its attributes in source order and its
children, or an embedded expression `{e}` used as a child. -/
inductive VNode where
  | element (tag : String) (attrs : List (String × JSVal)) (children : List VNode) : VNode
  | expr (v : JSVal) : VNode

/-- One recorded invocation of a caller-owned callback: its reference and the
argument list it received. -/
abbrev Call := Nat × List JSVal

/-- A component instance: `this.props` as the list of the properties the caller
supplied, and `this.state`. -/
structure Component where
  props : List (String × JSVal)
  state : JSVal

/-- What a render pass could touch: the component instance (which holds the
caller-owned `errors` array) and the invocations of caller callbacks so far. -/
structure World where
  self : Component
  calls : List Call

/-- A computation step: it may raise an error, and it returns the world it leaves. -/
abbrev Exec (α : Type) := World → Except JSError α × World

/-- Sequencing: an error in the first step skips the rest and keeps the world
the first step left. -/
def Exec.bind {α β : Type} (m : Exec α) (f : α → Exec β) : Exec β := fun w =>
  match m w with
  | (Except.ok a, w1) => f a w1
  | (Except.error e, w1) => (Except.error e, w1)

/-- Return a value, leaving the world as it is. -/
def Exec.ret {α : Type} (a : α) : Exec α := fun w => (Except.ok a, w)

/-! ## Primitive operations of the language -/

/-- Property lookup in an object literal: `obj.name`, `undefined` when absent. -/
def lookupProp (props : List (String × JSVal)) (name : String) : JSVal :=
  match props.lookup name with
  | some v => v
  | none => JSVal.undefined

/-- Step `this.props.name`. -/
def readProp (name : String) : Exec JSVal := fun w =>
  (Except.ok (lookupProp w.self.props name), w)

/-- Number of UTF-16 code units of a string, which is what `s.length` returns. -/
def utf16Length (s : String) : Nat :=
  (s.data.map (fun c => if c.val < 0x10000 then 1 else 2)).sum

/-- The value of `v.length`: a `TypeError` on `undefined` and `null`, the length of
an array or string, the arity of a function, and `undefined` for the values that
have no such member. -/
def lengthOf : JSVal → Except JSError JSVal
  | JSVal.undefined => Except.error (JSError.cannotReadMember "length")
  | JSVal.null => Except.error (JSError.cannotReadMember "length")
  | JSVal.arr xs => Except.ok (JSVal.num xs.length)
  | JSVal.str s => Except.ok (JSVal.num (utf16Length s))
  | JSVal.fn _ arity => Except.ok (JSVal.num arity)
  | JSVal.bool _ => Except.ok JSVal.undefined
  | JSVal.num _ => Except.ok JSVal.undefined
  | JSVal.host _ => Except.ok JSVal.undefined

/-- Step `v.length`. -/
def getLength (v : JSVal) : Exec JSVal := fun w => (lengthOf v, w)

/-- JavaScript truthiness, as used by `!x`. -/
def truthy : JSVal → Bool
  | JSVal.undefined => false
  | JSVal.null => false
  | JSVal.bool b => b
  | JSVal.num n => n != 0
  | JSVal.str s => s != ""
  | JSVal.arr _ => true
  | JSVal.fn _ _ => true
  | JSVal.host _ => true

/-- The value of `v.map(f)` for a callback `f` that builds a node: the built-in
`Array.prototype.map` on an array (a new array, element by element, in order; the
receiver is not written), a `TypeError` on every other value, none of which has a
callable `map` member. -/
def mapOf (v : JSVal) (f : String → VNode) : Except JSError (List VNode) :=
  match v with
  | JSVal.arr xs => Except.ok (xs.map f)
  | JSVal.undefined => Except.error (JSError.cannotReadMember "map")
  | JSVal.null => Except.error (JSError.cannotReadMember "map")
  | _ => Except.error (JSError.notAFunction "map")

/-- Step `v.map(f)`. -/
def arrayMap (v : JSVal) (f : String → VNode) : Exec (List VNode) := fun w => (mapOf v f, w)

/-! ## The component -/

/-- Line 10, the callback given to `map`, on a string element `e`:
`<li key={e} className="largetext">{e}</li>`.  The key kept for the element is
the string `e` itself (the string form of a string is that string). -/
def errorNode (e : String) : VNode :=
  VNode.element "li" [("key", JSVal.str e), ("className", JSVal.str "largetext")]
    [VNode.expr (JSVal.str e)]

/-- Line 6: `<div/>`. -/
def emptyView : VNode := VNode.element "div" [] []

/-- Lines 13 to 33, the markup returned for a non-empty list, as a function of the
two expressions embedded in it: the `onClick` value of the anchor and the array
`errorNodes` placed in `<ul>{errorNodes}</ul>`, which becomes the children of
the `ul`. -/
def container (onClearErrors : JSVal) (errorNodes : List VNode) : VNode :=
  VNode.element "div" [("className", JSVal.str "container")] [
    VNode.element "div" [("className", JSVal.str "mod shadow mtm")] [
      VNode.element "div" [("className", JSVal.str "inner bg-red-lt")] [
        VNode.element "div" [("className", JSVal.str "bd")] [
          VNode.element "div" [("className", JSVal.str "media centerify")] [
            VNode.element "div" [("className", JSVal.str "imgExt")] [
              VNode.element "a"
                [("onClick", onClearErrors),
                 ("className", JSVal.str "icon-kryss1 linkblock sharp")] []],
            VNode.element "div" [("className", JSVal.str "bd")] [
              VNode.element "ul" [] errorNodes]]]]]]

/-- Lines 4 to 34, `render`: the guard on `this.props.errors.length`, the `map`
over `this.props.errors`, then the markup with `this.props.onClearErrors`. -/
def render : Exec VNode :=
  Exec.bind (readProp "errors") fun errors =>
  Exec.bind (getLength errors) fun len =>
  if !truthy len then
    Exec.ret emptyView
  else
    Exec.bind (readProp "errors") fun errors2 =>
    Exec.bind (arrayMap errors2 errorNode) fun errorNodes =>
    Exec.bind (readProp "onClearErrors") fun onClearErrors =>
    Exec.ret (container onClearErrors errorNodes)

/-! ## Observations on a rendered tree -/

/-- The value of attribute `name` of an element. -/
def attr (name : String) : VNode → Option JSVal
  | VNode.element _ attrs _ => attrs.lookup name
  | VNode.expr _ => none

/-- The tag of an element. -/
def tagOf : VNode → Option String
  | VNode.element tag _ _ => some tag
  | VNode.expr _ => none

/-- The children of an element. -/
def childrenOf : VNode → List VNode
  | VNode.element _ _ cs => cs
  | VNode.expr _ => []

mutual
/-- All elements with the given tag, in document order. -/
def elementsByTag (t : String) : VNode → List VNode
  | VNode.element tag attrs cs =>
      (if tag = t then [VNode.element tag attrs cs] else []) ++ elementsByTagList t cs
  | VNode.expr _ => []
/-- The elements with the given tag inside a list of siblings. -/
def elementsByTagList (t : String) : List VNode → List VNode
  | [] => []
  | c :: cs => elementsByTag t c ++ elementsByTagList t cs
end

mutual
/-- The values of all `onClick` attributes in the tree, in document order. -/
def clickHandlers : VNode → List JSVal
  | VNode.element _ attrs cs =>
      (match attrs.lookup "onClick" with
        | some h => [h]
        | none => []) ++ clickHandlersList cs
  | VNode.expr _ => []
/-- The `onClick` values inside a list of siblings. -/
def clickHandlersList : List VNode → List JSVal
  | [] => []
  | c :: cs => clickHandlers c ++ clickHandlersList cs
end

mutual
/-- The tree with the children of every `ul` replaced by `cs`. -/
def withUlChildren (cs : List VNode) : VNode → VNode
  | VNode.element tag attrs children =>
      if tag = "ul" then VNode.element tag attrs cs
      else VNode.element tag attrs (withUlChildrenList cs children)
  | VNode.expr v => VNode.expr v
/-- The same replacement in a list of siblings. -/
def withUlChildrenList (cs : List VNode) : List VNode → List VNode
  | [] => []
  | c :: rest => withUlChildren cs c :: withUlChildrenList cs rest
end

/-- The line items of a tree. -/
def lineItems (v : VNode) : List VNode := elementsByTag "li" v

/-- Whether a node is an element whose only child is the string `s`. -/
def reads (s : String) : VNode → Bool
  | VNode.element _ _ [VNode.expr (JSVal.str t)] => t == s
  | _ => false

/-- Activating a control with the arguments the hosting framework dispatches
(the dispatch itself is the framework, not this component): a function held by
`onClick` is invoked once with exactly these arguments, which the log records;
when `onClick` is absent or holds anything else, no callback is invoked and
nothing happens. -/
def activate (control : VNode) (args : List JSVal) : Exec Unit := fun w =>
  match attr "onClick" control with
  | some (JSVal.fn ref _) => (Except.ok (), { w with calls := w.calls ++ [(ref, args)] })
  | _ => (Except.ok (), w)

/-- The errors property of a world holding the strings `xs`. -/
def strings (xs : List String) : JSVal := JSVal.arr xs

/-- A component instance with the given properties, no state, and nothing invoked yet. -/
def worldOf (props : List (String × JSVal)) : World :=
  { self := { props := props, state := JSVal.null }, calls := [] }

/-! ## Auxiliary lemmas -/

theorem render_arr (w : World) (xs : List String)
    (hE : lookupProp w.self.props "errors" = JSVal.arr xs) :
    render w =
      (Except.ok (if xs.isEmpty then emptyView
        else container (lookupProp w.self.props "onClearErrors") (xs.map errorNode)), w) := by
  cases xs with
  | nil =>
    simp [render, Exec.bind, readProp, hE, getLength, lengthOf, truthy, Exec.ret]
  | cons x xs =>
    have hlen : ¬ ((↑(xs.length) : Int) + 1 = 0) := by omega
    simp [render, Exec.bind, readProp, hE, getLength, lengthOf, truthy, Exec.ret,
      arrayMap, mapOf, hlen]

theorem render_strings (w : World) (xs : List String) (hne : xs ≠ [])
    (hE : lookupProp w.self.props "errors" = strings xs) :
    (render w).1 = Except.ok (container (lookupProp w.self.props "onClearErrors")
      (xs.map errorNode)) := by
  have h := render_arr w xs hE
  simp [h, hne]

theorem elementsByTag_errorNode (t : String) (e : String) :
    elementsByTag t (errorNode e) = if "li" = t then [errorNode e] else [] := by
  simp [errorNode, elementsByTag, elementsByTagList]

theorem elementsByTagList_li (xs : List String) :
    elementsByTagList "li" (xs.map errorNode) = xs.map errorNode := by
  induction xs with
  | nil => simp [elementsByTagList]
  | cons x xs ih =>
    rw [List.map_cons, elementsByTagList, ih, elementsByTag_errorNode]
    simp

theorem elementsByTagList_errorNodes (t : String) (ht : t ≠ "li") (xs : List String) :
    elementsByTagList t (xs.map errorNode) = [] := by
  induction xs with
  | nil => simp [elementsByTagList]
  | cons x xs ih =>
    rw [List.map_cons, elementsByTagList, ih, elementsByTag_errorNode]
    simp [Ne.symm ht]

theorem clickHandlers_errorNode (e : String) : clickHandlers (errorNode e) = [] := by
  simp [errorNode, clickHandlers, clickHandlersList, List.lookup]

theorem clickHandlersList_errorNodes (xs : List String) :
    clickHandlersList (xs.map errorNode) = [] := by
  induction xs with
  | nil => simp [clickHandlersList]
  | cons x xs ih =>
    rw [List.map_cons, clickHandlersList, ih, clickHandlers_errorNode]
    simp

theorem lineItems_container (h : JSVal) (xs : List String) :
    lineItems (container h (xs.map errorNode)) = xs.map errorNode := by
  simp [lineItems, container, elementsByTag, elementsByTagList, elementsByTagList_li]

theorem uls_container (h : JSVal) (xs : List String) :
    elementsByTag "ul" (container h (xs.map errorNode))
      = [VNode.element "ul" [] (xs.map errorNode)] := by
  simp [container, elementsByTag, elementsByTagList, elementsByTagList_errorNodes]

theorem anchors_container (h : JSVal) (xs : List String) :
    elementsByTag "a" (container h (xs.map errorNode))
      = [VNode.element "a"
          [("onClick", h), ("className", JSVal.str "icon-kryss1 linkblock sharp")] []] := by
  simp [container, elementsByTag, elementsByTagList, elementsByTagList_errorNodes]

theorem clickHandlers_container (h : JSVal) (xs : List String) :
    clickHandlers (container h (xs.map errorNode)) = [h] := by
  simp [container, clickHandlers, clickHandlersList, clickHandlersList_errorNodes, List.lookup]

theorem withUlChildren_container (cs : List VNode) (h : JSVal) (items : List VNode) :
    withUlChildren cs (container h items) = container h cs := by
  simp [container, withUlChildren, withUlChildrenList]

theorem container_ne_emptyView (h : JSVal) (items : List VNode) :
    container h items ≠ emptyView := by
  simp [container, emptyView]

theorem reads_errorNode (s t : String) : reads s (errorNode t) = (t == s) := by
  simp [reads, errorNode]

theorem countP_reads_errorNodes (s : String) (xs : List String) :
    (xs.map errorNode).countP (reads s) = xs.count s := by
  induction xs with
  | nil => simp
  | cons x xs ih =>
    rw [List.map_cons, List.countP_cons, ih, reads_errorNode, List.count_cons]

theorem utf16Length_pos (s : String) (hs : s ≠ "") : utf16Length s ≠ 0 := by
  obtain ⟨cs⟩ := s
  cases cs with
  | nil => exact absurd rfl hs
  | cons c cs =>
    simp only [utf16Length, List.map_cons, List.sum_cons]
    split <;> omega

theorem render_falsy_length (w : World) (len : JSVal)
    (hL : lengthOf (lookupProp w.self.props "errors") = Except.ok len)
    (hF : truthy len = false) : render w = (Except.ok emptyView, w) := by
  simp [render, Exec.bind, readProp, getLength, hL, hF, Exec.ret]

theorem render_no_length (w : World) (e : JSError)
    (hL : lengthOf (lookupProp w.self.props "errors") = Except.error e) :
    render w = (Except.error e, w) := by
  simp [render, Exec.bind, readProp, getLength, hL]

theorem render_truthy_length (w : World) (len : JSVal)
    (hL : lengthOf (lookupProp w.self.props "errors") = Except.ok len)
    (hT : truthy len = true) :
    render w = (match mapOf (lookupProp w.self.props "errors") errorNode with
      | Except.ok nodes =>
          Except.ok (container (lookupProp w.self.props "onClearErrors") nodes)
      | Except.error e => Except.error e, w) := by
  cases hM : mapOf (lookupProp w.self.props "errors") errorNode <;>
    simp [render, Exec.bind, readProp, getLength, hL, hT, arrayMap, Exec.ret, hM]

theorem render_world (w : World) : (render w).2 = w := by
  cases hL : lengthOf (lookupProp w.self.props "errors") with
  | error e => rw [render_no_length w e hL]
  | ok len =>
    cases hT : truthy len with
    | false => rw [render_falsy_length w len hL hT]
    | true => rw [render_truthy_length w len hL hT]

theorem render_congr (w1 w2 : World)
    (hE : lookupProp w1.self.props "errors" = lookupProp w2.self.props "errors")
    (hH : lookupProp w1.self.props "onClearErrors" = lookupProp w2.self.props "onClearErrors") :
    (render w1).1 = (render w2).1 := by
  cases hL : lengthOf (lookupProp w2.self.props "errors") with
  | error e => rw [render_no_length w2 e hL, render_no_length w1 e (hE ▸ hL)]
  | ok len =>
    cases hT : truthy len with
    | false => rw [render_falsy_length w2 len hL hT, render_falsy_length w1 len (hE ▸ hL) hT]
    | true =>
      rw [render_truthy_length w2 len hL hT, render_truthy_length w1 len (hE ▸ hL) hT, hE, hH]

theorem activate_anchor (h : JSVal) (ref ar : Nat) (hh : h = JSVal.fn ref ar)
    (args : List JSVal) (w : World) :
    activate (VNode.element "a"
      [("onClick", h), ("className", JSVal.str "icon-kryss1 linkblock sharp")] []) args w
      = (Except.ok (), { w with calls := w.calls ++ [(ref, args)] }) := by
  subst hh
  simp [activate, attr, List.lookup]

/-! ## The empty list -/

/-- C1: whatever the other properties (in particular whatever handler is
supplied), `render` with an empty `errors` array returns the empty view `<div/>`:
one `div` without attributes and without children, which contains no line item
and no element carrying a click handler. -/
theorem render_empty_errors_is_empty_view (w : World)
    (hE : lookupProp w.self.props "errors" = strings []) :
    ∃ v, (render w).1 = Except.ok v ∧ v = VNode.element "div" [] [] ∧
      childrenOf v = [] ∧ lineItems v = [] ∧ clickHandlers v = [] := by
  refine ⟨emptyView, ?_, rfl, rfl, ?_, ?_⟩
  · have h := render_arr w [] hE
    simp [h]
  · simp [lineItems, emptyView, elementsByTag, elementsByTagList]
  · simp [emptyView, clickHandlers, clickHandlersList, List.lookup]

theorem render_empty_errors_is_empty_view_witness :
    ∃ v, (render (worldOf [("errors", strings []), ("onClearErrors", JSVal.fn 1 0)])).1
        = Except.ok v ∧ v = VNode.element "div" [] [] ∧
      childrenOf v = [] ∧ lineItems v = [] ∧ clickHandlers v = [] :=
  render_empty_errors_is_empty_view
    (worldOf [("errors", strings []), ("onClearErrors", JSVal.fn 1 0)])
    (by simp [worldOf, lookupProp, List.lookup])

/-! ## The line items -/

/-- C2: for a non-empty array of `N` strings the returned view contains exactly `N`
line items, they are exactly the children of the only `ul` of the view, they come
in input order, and the `key` of the `i`-th line item is `errors[i]`. -/
theorem render_line_items_keyed_in_order (w : World) (xs : List String) (hne : xs ≠ [])
    (hE : lookupProp w.self.props "errors" = strings xs) :
    ∃ v, (render w).1 = Except.ok v ∧
      (lineItems v).length = xs.length ∧
      elementsByTag "ul" v = [VNode.element "ul" [] (lineItems v)] ∧
      (lineItems v).map (attr "key") = xs.map (fun s => some (JSVal.str s)) ∧
      ∀ i (hi : i < xs.length),
        ((lineItems v)[i]?).bind (attr "key") = some (JSVal.str xs[i]) := by
  refine ⟨_, render_strings w xs hne hE, ?_, ?_, ?_, ?_⟩
  · rw [lineItems_container]; simp
  · rw [lineItems_container, uls_container]
  · rw [lineItems_container]
    simp [errorNode, attr, List.lookup, Function.comp_def]
  · intro i hi
    rw [lineItems_container]
    simp [List.getElem?_map, List.getElem?_eq_getElem hi, errorNode, attr, List.lookup]

theorem render_line_items_keyed_in_order_witness :
    ∃ v, (render (worldOf [("errors", strings ["Network timeout", "Invalid login"]),
          ("onClearErrors", JSVal.fn 1 0)])).1 = Except.ok v ∧
      (lineItems v).length = ["Network timeout", "Invalid login"].length ∧
      elementsByTag "ul" v = [VNode.element "ul" [] (lineItems v)] ∧
      (lineItems v).map (attr "key")
        = ["Network timeout", "Invalid login"].map (fun s => some (JSVal.str s)) ∧
      ∀ i (hi : i < ["Network timeout", "Invalid login"].length),
        ((lineItems v)[i]?).bind (attr "key")
          = some (JSVal.str ["Network timeout", "Invalid login"][i]) :=
  render_line_items_keyed_in_order
    (worldOf [("errors", strings ["Network timeout", "Invalid login"]),
      ("onClearErrors", JSVal.fn 1 0)])
    ["Network timeout", "Invalid login"] (by simp)
    (by simp [worldOf, lookupProp, List.lookup])

/-- C3: for a non-empty array of strings the only child of the `i`-th line item is
the string `errors[i]` itself, whatever characters it is made of. -/
theorem render_line_item_content_verbatim (w : World) (xs : List String) (hne : xs ≠ [])
    (hE : lookupProp w.self.props "errors" = strings xs) :
    ∃ v, (render w).1 = Except.ok v ∧
      (lineItems v).map childrenOf = xs.map (fun s => [VNode.expr (JSVal.str s)]) ∧
      ∀ i (hi : i < xs.length),
        ((lineItems v)[i]?).map childrenOf = some [VNode.expr (JSVal.str xs[i])] := by
  refine ⟨_, render_strings w xs hne hE, ?_, ?_⟩
  · rw [lineItems_container]
    simp [errorNode, childrenOf, Function.comp_def]
  · intro i hi
    rw [lineItems_container]
    simp [List.getElem?_map, List.getElem?_eq_getElem hi, errorNode, childrenOf]

theorem render_line_item_content_verbatim_witness :
    ∃ v, (render (worldOf [("errors", strings ["  <b>a &amp; b</b> ", ""]),
          ("onClearErrors", JSVal.fn 1 0)])).1 = Except.ok v ∧
      (lineItems v).map childrenOf
        = ["  <b>a &amp; b</b> ", ""].map (fun s => [VNode.expr (JSVal.str s)]) ∧
      ∀ i (hi : i < ["  <b>a &amp; b</b> ", ""].length),
        ((lineItems v)[i]?).map childrenOf
          = some [VNode.expr (JSVal.str ["  <b>a &amp; b</b> ", ""][i])] :=
  render_line_item_content_verbatim
    (worldOf [("errors", strings ["  <b>a &amp; b</b> ", ""]), ("onClearErrors", JSVal.fn 1 0)])
    ["  <b>a &amp; b</b> ", ""] (by simp)
    (by simp [worldOf, lookupProp, List.lookup])

/-- C4: no deduplication.  For every array of strings and every string `s`, the
number of line items reading `s` is the number of occurrences of `s` in the
array, and every line item reading `s` has the key `s`. -/
theorem render_keeps_duplicates (w : World) (xs : List String) (s : String)
    (hE : lookupProp w.self.props "errors" = strings xs) :
    ∃ v, (render w).1 = Except.ok v ∧
      (lineItems v).countP (reads s) = xs.count s ∧
      ∀ n ∈ lineItems v, reads s n = true → attr "key" n = some (JSVal.str s) := by
  by_cases hne : xs = []
  · subst hne
    refine ⟨emptyView, ?_, ?_, ?_⟩
    · have h := render_arr w [] hE
      simp [h]
    · simp [lineItems, emptyView, elementsByTag, elementsByTagList]
    · simp [lineItems, emptyView, elementsByTag, elementsByTagList]
  · refine ⟨_, render_strings w xs hne hE, ?_, ?_⟩
    · rw [lineItems_container, countP_reads_errorNodes]
    · rw [lineItems_container]
      intro n hn hr
      simp only [List.mem_map] at hn
      obtain ⟨t, _, rfl⟩ := hn
      rw [reads_errorNode] at hr
      have ht : t = s := by simpa using hr
      subst ht
      simp [errorNode, attr, List.lookup]

theorem render_keeps_duplicates_witness :
    ∃ v, (render (worldOf [("errors", strings ["Invalid login", "Invalid login"])])).1
        = Except.ok v ∧
      (lineItems v).countP (reads "Invalid login")
        = ["Invalid login", "Invalid login"].count "Invalid login" ∧
      ∀ n ∈ lineItems v, reads "Invalid login" n = true →
        attr "key" n = some (JSVal.str "Invalid login") :=
  render_keeps_duplicates (worldOf [("errors", strings ["Invalid login", "Invalid login"])])
    ["Invalid login", "Invalid login"] "Invalid login"
    (by simp [worldOf, lookupProp, List.lookup])

/-! ## The dismiss control -/

/-- C5: for a non-empty array of strings of any length the view has exactly one
element carrying a click handler, the anchor, and the handler is the value the
caller supplied as the handler input (the property `onClearErrors`); when that
value is a callback, one activation of the anchor invokes it exactly once. -/
theorem render_attaches_onClearErrors (w : World) (xs : List String) (hne : xs ≠ [])
    (hE : lookupProp w.self.props "errors" = strings xs) :
    ∃ v a, (render w).1 = Except.ok v ∧
      clickHandlers v = [lookupProp w.self.props "onClearErrors"] ∧
      elementsByTag "a" v = [a] ∧
      attr "onClick" a = some (lookupProp w.self.props "onClearErrors") ∧
      ∀ ref ar, lookupProp w.self.props "onClearErrors" = JSVal.fn ref ar →
        ∀ args w1, ∃ c, (activate a args w1).1 = Except.ok () ∧
          (activate a args w1).2.calls = w1.calls ++ [c] ∧ c.1 = ref := by
  refine ⟨_, _, render_strings w xs hne hE, clickHandlers_container _ _,
    anchors_container _ _, ?_, ?_⟩
  · simp [attr, List.lookup]
  · intro ref ar hh args w1
    refine ⟨(ref, args), ?_, ?_, rfl⟩
    · rw [activate_anchor _ ref ar hh]
    · rw [activate_anchor _ ref ar hh]

theorem render_attaches_onClearErrors_witness :
    ∃ v a, (render (worldOf [("errors", strings ["Network timeout"]),
          ("onClearErrors", JSVal.fn 1 0)])).1 = Except.ok v ∧
      clickHandlers v = [lookupProp (worldOf [("errors", strings ["Network timeout"]),
          ("onClearErrors", JSVal.fn 1 0)]).self.props "onClearErrors"] ∧
      elementsByTag "a" v = [a] ∧
      attr "onClick" a = some (lookupProp (worldOf [("errors", strings ["Network timeout"]),
          ("onClearErrors", JSVal.fn 1 0)]).self.props "onClearErrors") ∧
      ∀ ref ar, lookupProp (worldOf [("errors", strings ["Network timeout"]),
          ("onClearErrors", JSVal.fn 1 0)]).self.props "onClearErrors" = JSVal.fn ref ar →
        ∀ args w1, ∃ c, (activate a args w1).1 = Except.ok () ∧
          (activate a args w1).2.calls = w1.calls ++ [c] ∧ c.1 = ref :=
  render_attaches_onClearErrors
    (worldOf [("errors", strings ["Network timeout"]), ("onClearErrors", JSVal.fn 1 0)])
    ["Network timeout"] (by simp) (by simp [worldOf, lookupProp, List.lookup])

/-- C9, as stated, fails: the anchor carries the callback itself, so an activation
that dispatches the click event passes that event on to the callback, which is
then invoked with one argument and not with an empty argument list. -/
theorem callback_receives_dispatched_event :
    ∃ v a, (render (worldOf [("errors", strings ["Network timeout"]),
          ("onClearErrors", JSVal.fn 7 0)])).1 = Except.ok v ∧
      elementsByTag "a" v = [a] ∧
      (activate a [JSVal.host 0] (worldOf [])).2.calls = [(7, [JSVal.host 0])] ∧
      (activate a [JSVal.host 0] (worldOf [])).2.calls ≠ [(7, [])] := by
  refine ⟨_, _, render_strings _ ["Network timeout"] (by simp)
    (by simp [worldOf, lookupProp, List.lookup]), anchors_container _ _, ?_, ?_⟩
  · rw [activate_anchor _ 7 0 (by simp [worldOf, lookupProp, List.lookup])]
    simp [worldOf]
  · rw [activate_anchor _ 7 0 (by simp [worldOf, lookupProp, List.lookup])]
    simp [worldOf]

/-- C9, amended: the anchor of a non-empty view carries the caller-supplied
`onClearErrors` callback itself, without a wrapper; every activation invokes the
callback once with exactly the argument list that the activation dispatches, so
the callback is invoked with no arguments only when none are dispatched. -/
theorem activation_forwards_arguments (w : World) (xs : List String) (hne : xs ≠ [])
    (hE : lookupProp w.self.props "errors" = strings xs) (ref ar : Nat)
    (hH : lookupProp w.self.props "onClearErrors" = JSVal.fn ref ar) :
    ∃ v a, (render w).1 = Except.ok v ∧ elementsByTag "a" v = [a] ∧
      attr "onClick" a = some (JSVal.fn ref ar) ∧
      (∀ args w1, activate a args w1
        = (Except.ok (), { w1 with calls := w1.calls ++ [(ref, args)] })) ∧
      ∀ w1, (activate a [] w1).2.calls = w1.calls ++ [(ref, [])] := by
  refine ⟨_, _, render_strings w xs hne hE, anchors_container _ _, ?_, ?_, ?_⟩
  · simp [attr, List.lookup, hH]
  · intro args w1
    rw [activate_anchor _ ref ar hH]
  · intro w1
    rw [activate_anchor _ ref ar hH]

theorem activation_forwards_arguments_witness :
    ∃ v a, (render (worldOf [("errors", strings ["Network timeout"]),
          ("onClearErrors", JSVal.fn 7 0)])).1 = Except.ok v ∧
      elementsByTag "a" v = [a] ∧
      attr "onClick" a = some (JSVal.fn 7 0) ∧
      (∀ args w1, activate a args w1
        = (Except.ok (), { w1 with calls := w1.calls ++ [(7, args)] })) ∧
      ∀ w1, (activate a [] w1).2.calls = w1.calls ++ [(7, [])] :=
  activation_forwards_arguments
    (worldOf [("errors", strings ["Network timeout"]), ("onClearErrors", JSVal.fn 7 0)])
    ["Network timeout"] (by simp) (by simp [worldOf, lookupProp, List.lookup]) 7 0
    (by simp [worldOf, lookupProp, List.lookup])

/-! ## Inputs that are not arrays of strings -/

/-- C6, as stated, fails: when the caller supplies no `errors` property, line 5
reads `length` of `undefined` and `render` raises a `TypeError` instead of
returning the empty view. -/
theorem render_raises_when_errors_missing :
    (render (worldOf [("onClearErrors", JSVal.fn 1 0)])).1
        = Except.error (JSError.cannotReadMember "length") ∧
      (render (worldOf [("errors", JSVal.null), ("onClearErrors", JSVal.fn 1 0)])).1
        = Except.error (JSError.cannotReadMember "length") ∧
      ¬ ∃ v, (render (worldOf [("onClearErrors", JSVal.fn 1 0)])).1 = Except.ok v := by
  have h1 : render (worldOf [("onClearErrors", JSVal.fn 1 0)])
      = (Except.error (JSError.cannotReadMember "length"),
          worldOf [("onClearErrors", JSVal.fn 1 0)]) :=
    render_no_length _ _ (by simp [worldOf, lookupProp, List.lookup, lengthOf])
  have h2 : render (worldOf [("errors", JSVal.null), ("onClearErrors", JSVal.fn 1 0)])
      = (Except.error (JSError.cannotReadMember "length"),
          worldOf [("errors", JSVal.null), ("onClearErrors", JSVal.fn 1 0)]) :=
    render_no_length _ _ (by simp [worldOf, lookupProp, List.lookup, lengthOf])
  refine ⟨by rw [h1], by rw [h2], ?_⟩
  rw [h1]
  simp

/-- C6, amended: `render` cannot fail when `errors` is a sequence of strings: it
returns a view, and the empty view for the empty sequence.  When `errors` is
missing or `null`, `render` raises a `TypeError` on reading `length`.  A value
that is not an array degrades to the empty view exactly when its `length` is
falsy (a number, a boolean, a host object, the empty string, a function without
parameters); when its `length` is truthy (a non-empty string, a function with
parameters) `render` raises a `TypeError` on calling `map`.  So `render` returns
a view exactly when `errors` is an array or has a falsy `length`. -/
theorem render_fails_only_without_array (w : World) :
    (∀ xs, lookupProp w.self.props "errors" = strings xs →
      ∃ v, (render w).1 = Except.ok v ∧ (xs = [] → v = emptyView)) ∧
    (∀ len, lengthOf (lookupProp w.self.props "errors") = Except.ok len →
      truthy len = false → (render w).1 = Except.ok emptyView) ∧
    (lookupProp w.self.props "errors" = JSVal.undefined ∨
        lookupProp w.self.props "errors" = JSVal.null →
      (render w).1 = Except.error (JSError.cannotReadMember "length")) ∧
    (∀ len, lengthOf (lookupProp w.self.props "errors") = Except.ok len →
      truthy len = true → (∀ xs, lookupProp w.self.props "errors" ≠ JSVal.arr xs) →
      (render w).1 = Except.error (JSError.notAFunction "map")) ∧
    (∀ s, s ≠ "" → lookupProp w.self.props "errors" = JSVal.str s →
      (render w).1 = Except.error (JSError.notAFunction "map")) ∧
    (∀ ref ar, ar ≠ 0 → lookupProp w.self.props "errors" = JSVal.fn ref ar →
      (render w).1 = Except.error (JSError.notAFunction "map")) ∧
    ((∃ v, (render w).1 = Except.ok v) ↔
      ((∃ xs, lookupProp w.self.props "errors" = strings xs) ∨
        ∃ len, lengthOf (lookupProp w.self.props "errors") = Except.ok len ∧
          truthy len = false)) := by
  have hArr : ∀ xs, lookupProp w.self.props "errors" = strings xs →
      ∃ v, (render w).1 = Except.ok v ∧ (xs = [] → v = emptyView) := by
    intro xs hE
    refine ⟨_, by rw [render_arr w xs hE], ?_⟩
    intro hxs
    simp [hxs]
  have hTruthy : ∀ len, lengthOf (lookupProp w.self.props "errors") = Except.ok len →
      truthy len = true → (∀ xs, lookupProp w.self.props "errors" ≠ JSVal.arr xs) →
      (render w).1 = Except.error (JSError.notAFunction "map") := by
    intro len hL hT hNot
    rw [render_truthy_length w len hL hT]
    cases he : lookupProp w.self.props "errors" with
    | arr xs => exact absurd he (hNot xs)
    | undefined => rw [he] at hL; simp [lengthOf] at hL
    | null => rw [he] at hL; simp [lengthOf] at hL
    | bool b => simp [mapOf]
    | num n => simp [mapOf]
    | str t => simp [mapOf]
    | fn r a => simp [mapOf]
    | host i => simp [mapOf]
  refine ⟨hArr, ?_, ?_, hTruthy, ?_, ?_, ?_⟩
  · intro len hL hF
    rw [render_falsy_length w len hL hF]
  · intro h
    rw [render_no_length w (JSError.cannotReadMember "length")]
    rcases h with h | h <;> simp [h, lengthOf]
  · intro s hs hE
    have hpos := utf16Length_pos s hs
    refine hTruthy (JSVal.num (utf16Length s)) (by rw [hE]; rfl) ?_ (by simp [hE])
    simp only [truthy, bne_iff_ne, ne_eq]
    omega
  · intro ref ar har hE
    refine hTruthy (JSVal.num ar) (by rw [hE]; rfl) ?_ (by simp [hE])
    simp only [truthy, bne_iff_ne, ne_eq]
    omega
  · constructor
    · rintro ⟨v, hv⟩
      cases hL : lengthOf (lookupProp w.self.props "errors") with
      | error e =>
        rw [render_no_length w e hL] at hv
        simp at hv
      | ok len =>
        cases hT : truthy len with
        | false => exact Or.inr ⟨len, rfl, hT⟩
        | true =>
          by_cases hA : ∃ xs, lookupProp w.self.props "errors" = JSVal.arr xs
          · exact Or.inl hA
          · have hNot : ∀ xs, lookupProp w.self.props "errors" ≠ JSVal.arr xs :=
              fun xs h => hA ⟨xs, h⟩
            rw [hTruthy len hL hT hNot] at hv
            simp at hv
    · rintro (⟨xs, hE⟩ | ⟨len, hL, hF⟩)
      · obtain ⟨v, hv, _⟩ := hArr xs hE
        exact ⟨v, hv⟩
      · exact ⟨emptyView, by rw [render_falsy_length w len hL hF]⟩

theorem render_fails_only_without_array_witness :
    (∃ v, (render (worldOf [("errors", strings ["Network timeout", "Invalid login"])])).1
      = Except.ok v) ∧
    (render (worldOf [("errors", strings [])])).1 = Except.ok emptyView ∧
    (render (worldOf [("errors", JSVal.num 5)])).1 = Except.ok emptyView ∧
    (render (worldOf [("errors", JSVal.str "")])).1 = Except.ok emptyView ∧
    (render (worldOf [])).1 = Except.error (JSError.cannotReadMember "length") ∧
    (render (worldOf [("errors", JSVal.str "Invalid login")])).1
      = Except.error (JSError.notAFunction "map") ∧
    (render (worldOf [("errors", JSVal.fn 9 2)])).1
      = Except.error (JSError.notAFunction "map") ∧
    ¬ ∃ v, (render (worldOf [("errors", JSVal.null)])).1 = Except.ok v := by
  refine ⟨?_, ?_, ?_, ?_, ?_, ?_, ?_, ?_⟩
  · obtain ⟨v, hv, _⟩ :=
      (render_fails_only_without_array
        (worldOf [("errors", strings ["Network timeout", "Invalid login"])])).1
        ["Network timeout", "Invalid login"] (by simp [worldOf, lookupProp, List.lookup])
    exact ⟨v, hv⟩
  · obtain ⟨v, hv, hv2⟩ :=
      (render_fails_only_without_array (worldOf [("errors", strings [])])).1
        [] (by simp [worldOf, lookupProp, List.lookup])
    rw [hv, hv2 rfl]
  · exact (render_fails_only_without_array (worldOf [("errors", JSVal.num 5)])).2.1
      JSVal.undefined (by simp [worldOf, lookupProp, List.lookup, lengthOf]) rfl
  · exact (render_fails_only_without_array (worldOf [("errors", JSVal.str "")])).2.1
      (JSVal.num 0) (by simp [worldOf, lookupProp, List.lookup, lengthOf, utf16Length])
      (by simp [truthy])
  · exact (render_fails_only_without_array (worldOf [])).2.2.1
      (Or.inl (by simp [worldOf, lookupProp, List.lookup]))
  · exact (render_fails_only_without_array
      (worldOf [("errors", JSVal.str "Invalid login")])).2.2.2.2.1
      "Invalid login" (by decide) (by simp [worldOf, lookupProp, List.lookup])
  · exact (render_fails_only_without_array (worldOf [("errors", JSVal.fn 9 2)])).2.2.2.2.2.1
      9 2 (by decide) (by simp [worldOf, lookupProp, List.lookup])
  · intro h
    have h2 := (render_fails_only_without_array
      (worldOf [("errors", JSVal.null)])).2.2.2.2.2.2.mp h
    simp [worldOf, lookupProp, List.lookup, strings, lengthOf] at h2

/-! ## Determinism and frame -/

/-- C7: the view (or the error) `render` produces is a function of the two
properties it reads, `errors` and the handler `onClearErrors`: two component
instances that agree on these two, whatever their other properties, their state
and the callbacks invoked so far, render the same result, and rendering again
after a render pass gives the same result as the first pass. -/
theorem render_deterministic (w1 w2 : World)
    (hE : lookupProp w1.self.props "errors" = lookupProp w2.self.props "errors")
    (hH : lookupProp w1.self.props "onClearErrors" = lookupProp w2.self.props "onClearErrors") :
    (render w1).1 = (render w2).1 ∧ (render (render w1).2).1 = (render w1).1 := by
  refine ⟨render_congr w1 w2 hE hH, ?_⟩
  rw [render_world]

theorem render_deterministic_witness :
    (render (worldOf [("errors", strings ["Network timeout"]),
        ("onClearErrors", JSVal.fn 1 0)])).1
      = (render (World.mk (Component.mk [("title", JSVal.str "x"),
            ("onClearErrors", JSVal.fn 1 0), ("errors", strings ["Network timeout"])]
          (JSVal.num 3)) [(1, [])])).1 ∧
    (render (render (worldOf [("errors", strings ["Network timeout"]),
        ("onClearErrors", JSVal.fn 1 0)])).2).1
      = (render (worldOf [("errors", strings ["Network timeout"]),
        ("onClearErrors", JSVal.fn 1 0)])).1 :=
  render_deterministic
    (worldOf [("errors", strings ["Network timeout"]), ("onClearErrors", JSVal.fn 1 0)])
    (World.mk (Component.mk [("title", JSVal.str "x"),
          ("onClearErrors", JSVal.fn 1 0), ("errors", strings ["Network timeout"])]
        (JSVal.num 3)) [(1, [])])
    (by simp [worldOf, lookupProp, List.lookup])
    (by simp [worldOf, lookupProp, List.lookup])

/-- C8: a render pass leaves the world as it found it, whether it returns a view
or raises: the properties of the component, and so the elements of `errors` and
their order, are the same after `render` as before, and no caller callback has
been invoked, the log of invocations being unchanged. -/
theorem render_has_no_side_effect (w : World) :
    (render w).2 = w ∧
      lookupProp (render w).2.self.props "errors" = lookupProp w.self.props "errors" ∧
      (render w).2.self.props = w.self.props ∧
      (render w).2.calls = w.calls := by
  rw [render_world]
  exact ⟨rfl, rfl, rfl, rfl⟩

/-! ## The wrapper -/

/-- C10: for arrays of strings, the empty view is produced exactly when the
length of `errors` is zero; and for two non-empty arrays and the same handler the
two views are rooted at a `div` of class `container`, have a single `ul`, and
become the same tree once the children of the `ul` are replaced by any common
list. -/
theorem render_wrapper_is_fixed (w1 w2 : World) (xs ys : List String)
    (hE1 : lookupProp w1.self.props "errors" = strings xs)
    (hE2 : lookupProp w2.self.props "errors" = strings ys)
    (hH : lookupProp w1.self.props "onClearErrors" = lookupProp w2.self.props "onClearErrors") :
    ∃ v1 v2, (render w1).1 = Except.ok v1 ∧ (render w2).1 = Except.ok v2 ∧
      (v1 = emptyView ↔ xs.length = 0) ∧ (v2 = emptyView ↔ ys.length = 0) ∧
      (xs.length ≠ 0 → ys.length ≠ 0 →
        tagOf v1 = some "div" ∧ attr "className" v1 = some (JSVal.str "container") ∧
        tagOf v2 = some "div" ∧ attr "className" v2 = some (JSVal.str "container") ∧
        (elementsByTag "ul" v1).length = 1 ∧ (elementsByTag "ul" v2).length = 1 ∧
        ∀ cs, withUlChildren cs v1 = withUlChildren cs v2) := by
  have key : ∀ (w : World) (zs : List String),
      lookupProp w.self.props "errors" = strings zs →
      ∃ v, (render w).1 = Except.ok v ∧ (v = emptyView ↔ zs.length = 0) ∧
        (zs.length ≠ 0 → v = container (lookupProp w.self.props "onClearErrors")
          (zs.map errorNode)) := by
    intro w zs hE
    by_cases hz : zs = []
    · subst hz
      refine ⟨emptyView, ?_, by simp, by simp⟩
      have h := render_arr w [] hE
      simp [h]
    · refine ⟨_, render_strings w zs hz hE, ?_, fun _ => rfl⟩
      have hlen : zs.length ≠ 0 := fun h => hz (List.length_eq_zero.mp h)
      constructor
      · intro h; exact absurd h (container_ne_emptyView _ _)
      · intro h; exact absurd h hlen
  obtain ⟨v1, hv1, he1, hc1⟩ := key w1 xs hE1
  obtain ⟨v2, hv2, he2, hc2⟩ := key w2 ys hE2
  refine ⟨v1, v2, hv1, hv2, he1, he2, ?_⟩
  intro hx hy
  rw [hc1 hx, hc2 hy, uls_container, uls_container, hH]
  refine ⟨rfl, ?_, rfl, ?_, rfl, rfl, ?_⟩
  · simp [container, attr, List.lookup]
  · simp [container, attr, List.lookup]
  · intro cs
    rw [withUlChildren_container, withUlChildren_container]

theorem render_wrapper_is_fixed_witness :
    ∃ v1 v2, (render (worldOf [("errors", strings [""]),
          ("onClearErrors", JSVal.fn 1 0)])).1 = Except.ok v1 ∧
      (render (worldOf [("errors", strings ["Network timeout", "Invalid login"]),
          ("onClearErrors", JSVal.fn 1 0)])).1 = Except.ok v2 ∧
      (v1 = emptyView ↔ [""].length = 0) ∧
      (v2 = emptyView ↔ ["Network timeout", "Invalid login"].length = 0) ∧
      ([""].length ≠ 0 → ["Network timeout", "Invalid login"].length ≠ 0 →
        tagOf v1 = some "div" ∧ attr "className" v1 = some (JSVal.str "container") ∧
        tagOf v2 = some "div" ∧ attr "className" v2 = some (JSVal.str "container") ∧
        (elementsByTag "ul" v1).length = 1 ∧ (elementsByTag "ul" v2).length = 1 ∧
        ∀ cs, withUlChildren cs v1 = withUlChildren cs v2) :=
  render_wrapper_is_fixed
    (worldOf [("errors", strings [""]), ("onClearErrors", JSVal.fn 1 0)])
    (worldOf [("errors", strings ["Network timeout", "Invalid login"]),
      ("onClearErrors", JSVal.fn 1 0)])
    [""] ["Network timeout", "Invalid login"]
    (by simp [worldOf, lookupProp, List.lookup])
    (by simp [worldOf, lookupProp, List.lookup])
    (by simp [worldOf, lookupProp, List.lookup])

end ErrorMessages
